import Mathlib

/-!
Shallow embedding of the `flux-kluctl-controller` excerpt: the
`KluctlDeployment` CRD type with its status/condition helper functions
(Go package `v1alpha1`), and the two indexer functions of
`controllers/kluctl_indexers.go`.

Modelling choices:
* Go strings are modelled as `List Char` (one list element per code unit).
* `time.Duration` (an `int64` count of nanoseconds) is modelled as `Int`,
  with two's-complement wrap-around applied where Go arithmetic can
  overflow (`int64wrap`).
* Mutation of a deployment object is modelled by returning the updated
  record.
-/

namespace FluxKluctl

/-- Go strings, one list element per code unit. -/
abbrev Str := List Char

/-- Conversion from a Lean string literal to the `Str` model. -/
def str (s : String) : Str := s.toList

/-- `time.Duration`: an `int64` count of nanoseconds, modelled as `Int`. -/
abbrev Duration := Int

/-- `time.Second` in nanoseconds. -/
def second : Int := 1000000000

/-- Two's-complement wrap-around of Go `int64` arithmetic. -/
def int64wrap (x : Int) : Int := (x + 2 ^ 63) % 2 ^ 64 - 2 ^ 63

/-- `metav1.Condition` restricted to the fields the source constructs
(`Type`, `Status`, `Reason`, `Message`). -/
structure Condition where
  type : Str
  status : Str
  reason : Str
  message : Str
  deriving DecidableEq

/-- `meta.NamespacedObjectReference` (external flux type referenced by
`DependsOn`): a name plus an optional namespace. -/
structure NamespacedObjectReference where
  name : Str
  ns : Str
  deriving DecidableEq

/-- `CrossNamespaceSourceReference`, restricted to the fields accessed by
the source (`Kind`, `Name`, `Namespace`). -/
structure CrossNamespaceSourceReference where
  kind : Str
  name : Str
  ns : Str
  deriving DecidableEq

/-- The part of `metav1.ObjectMeta` the source reads: name, namespace and
generation. -/
structure ObjectMeta where
  name : Str
  ns : Str
  generation : Int
  deriving DecidableEq

/-- `KluctlDeploymentSpec` (source file `part_000`, lines 35-87). -/
structure KluctlDeploymentSpec where
  dependsOn : List NamespacedObjectReference
  interval : Duration
  retryInterval : Option Duration
  path : Str
  sourceRef : CrossNamespaceSourceReference
  suspend : Bool
  target : Str
  timeout : Option Duration
  forceApply : Bool
  prune : Bool
  deriving DecidableEq

/-- `KluctlDeploymentStatus` (source file `part_000`, lines 90-108). -/
structure KluctlDeploymentStatus where
  observedGeneration : Int
  conditions : List Condition
  lastDeployedRevision : Str
  lastAttemptedRevision : Str
  deriving DecidableEq

/-- `KluctlDeployment` (source file `part_000`, lines 208-214). -/
structure KluctlDeployment where
  metadata : ObjectMeta
  spec : KluctlDeploymentSpec
  status : KluctlDeploymentStatus
  deriving DecidableEq

/-- `MaxConditionMessageLength` constant. -/
def MaxConditionMessageLength : Nat := 20000

/-- `HealthyCondition` constant. -/
def HealthyCondition : Str := str "Healthy"

/-- `meta.ReadyCondition` (external flux constant, value `"Ready"`). -/
def ReadyCondition : Str := str "Ready"

/-- `meta.ProgressingReason` (external flux constant, value `"Progressing"`). -/
def ProgressingReason : Str := str "Progressing"

/-- `metav1.ConditionUnknown`. -/
def ConditionUnknown : Str := str "Unknown"

/-- `metav1.ConditionFalse`. -/
def ConditionFalse : Str := str "False"

/-- `metav1.ConditionTrue`. -/
def ConditionTrue : Str := str "True"

/-- `GetTimeout` (source file `part_000`, lines 158-167): start from
`Interval - 30s` (Go `int64` subtraction), replace it by the `Timeout`
override when present, then clamp from below at 30 seconds. -/
def GetTimeout (k : KluctlDeployment) : Duration :=
  let duration := int64wrap (k.spec.interval - 30 * second)
  let duration := match k.spec.timeout with
    | some t => t
    | none => duration
  if duration < 30 * second then 30 * second else duration

/-- `GetRequeueAfter` (source file `part_000`, lines 179-181). -/
def GetRequeueAfter (k : KluctlDeployment) : Duration :=
  k.spec.interval

/-- `GetRetryInterval` (source file `part_000`, lines 170-175). -/
def GetRetryInterval (k : KluctlDeployment) : Duration :=
  match k.spec.retryInterval with
  | some r => r
  | none => GetRequeueAfter k

/-- `GetDependsOn` (source file `part_000`, lines 184-186). -/
def GetDependsOn (k : KluctlDeployment) : List NamespacedObjectReference :=
  k.spec.dependsOn

/-- `trimString` (source file `part_000`, lines 229-235): keep strings of
length at most `limit`, otherwise take the first `limit` code units and
append `"..."`. -/
def trimString (s : Str) (limit : Nat) : Str :=
  if s.length ≤ limit then s else s.take limit ++ str "..."

/-- Modelled from the spec: `apimeta.SetStatusCondition` (external
apimachinery helper, not part of the provided source) implements
"condition-list upsert-by-type semantics (replace existing condition of
the same type, or append)": the first condition with the new condition's
type is replaced, and if none exists the new condition is appended. -/
def SetStatusCondition : List Condition → Condition → List Condition
  | [], c => [c]
  | d :: rest, c =>
    if d.type = c.type then c :: rest else d :: SetStatusCondition rest c

/-- `apimeta.FindStatusCondition` (external apimachinery helper): the
first condition with the given type, if any. -/
def FindStatusCondition (conds : List Condition) (t : Str) : Option Condition :=
  conds.find? (fun d => decide (d.type = t))

/-- `KluctlDeploymentProgressing` (source file `part_000`, lines 112-121):
upsert a Ready/Unknown/Progressing condition with the trimmed message. -/
def KluctlDeploymentProgressing (k : KluctlDeployment) (message : Str) :
    KluctlDeployment :=
  let newCondition : Condition :=
    { type := ReadyCondition, status := ConditionUnknown,
      reason := ProgressingReason,
      message := trimString message MaxConditionMessageLength }
  { k with status := { k.status with
      conditions := SetStatusCondition k.status.conditions newCondition } }

/-- `SetKluctlDeploymentHealthiness` (source file `part_000`, lines
124-132): upsert a Healthy condition with the trimmed message. -/
def SetKluctlDeploymentHealthiness (k : KluctlDeployment)
    (status reason message : Str) : KluctlDeployment :=
  let newCondition : Condition :=
    { type := HealthyCondition, status := status, reason := reason,
      message := trimString message MaxConditionMessageLength }
  { k with status := { k.status with
      conditions := SetStatusCondition k.status.conditions newCondition } }

/-- `SetKluctlDeploymentReadiness` (source file `part_000`, lines
135-146): upsert a Ready condition with the trimmed message, then set
`ObservedGeneration` to the object's generation and
`LastAttemptedRevision` to the given revision. -/
def SetKluctlDeploymentReadiness (k : KluctlDeployment)
    (status reason message revision : Str) : KluctlDeployment :=
  let newCondition : Condition :=
    { type := ReadyCondition, status := status, reason := reason,
      message := trimString message MaxConditionMessageLength }
  let k := { k with status := { k.status with
      conditions := SetStatusCondition k.status.conditions newCondition } }
  { k with status := { k.status with
      observedGeneration := k.metadata.generation,
      lastAttemptedRevision := revision } }

/-- `KluctlDeploymentNotReady` (source file `part_000`, lines 149-155):
set readiness to False with an (already trimmed) message, then re-set
`LastAttemptedRevision` when the revision is non-empty. -/
def KluctlDeploymentNotReady (k : KluctlDeployment)
    (revision reason message : Str) : KluctlDeployment :=
  let k := SetKluctlDeploymentReadiness k ConditionFalse reason
    (trimString message MaxConditionMessageLength) revision
  if revision ≠ [] then
    { k with status := { k.status with lastAttemptedRevision := revision } }
  else k

/-- The claim C1 rendered as a definition, following the claim's words:
the effective timeout is the maximum of `Interval - 30s`, the `Timeout`
override (when present), and a 30-second floor.  Used only to compare
against `GetTimeout`, which is translated from the source. -/
def GetTimeoutClaim (k : KluctlDeployment) : Duration :=
  let base := max (k.spec.interval - 30 * second) (30 * second)
  match k.spec.timeout with
  | some t => max base t
  | none => base

/-- `sourcev1.Artifact`, restricted to the field the indexer reads
(`Revision`). -/
structure Artifact where
  revision : Str
  deriving DecidableEq

/-- `types.NamespacedName`. -/
structure NamespacedName where
  ns : Str
  name : Str
  deriving DecidableEq

/-- `reconcile.Request`. -/
structure Request where
  namespacedName : NamespacedName
  deriving DecidableEq

/-- The `client.Object` handed to the mapper of
`requestsForRevisionChangeOf`: either it implements `GetArtifact()`
(returning an optional artifact), or it does not, in which case the
mapper panics. -/
inductive SourceObject where
  | withArtifact (meta : ObjectMeta) (artifact : Option Artifact)
  | withoutGetArtifact (meta : ObjectMeta)
  deriving DecidableEq

/-- Outcome of the `r.List` call with the index-key field selector:
either the indexed deployments, or an error. -/
inductive ListResult where
  | ok (items : List KluctlDeployment)
  | err
  deriving DecidableEq

/-- The request-building loop of `requestsForRevisionChangeOf`
(`kluctl_indexers.go`, lines 51-65): skip a deployment whose
`LastAttemptedRevision` equals the artifact revision, otherwise emit a
request with the deployment's namespace and name. -/
def requestsForRevisionChange (rev : Str) : List KluctlDeployment → List Request
  | [] => []
  | d :: rest =>
    if rev = d.status.lastAttemptedRevision then
      requestsForRevisionChange rev rest
    else
      { namespacedName := { ns := d.metadata.ns, name := d.metadata.name } }
        :: requestsForRevisionChange rev rest

/-- The mapper returned by `requestsForRevisionChangeOf`
(`kluctl_indexers.go`, lines 30-67).  `none` models the panic on an
object without `GetArtifact()`; a `nil` Go slice is modelled as `[]`.
The `List` call's outcome is passed in explicitly. -/
def requestsForRevisionChangeOf (obj : SourceObject)
    (listResult : ListResult) : Option (List Request) :=
  match obj with
  | .withoutGetArtifact _ => none
  | .withArtifact _ none => some []
  | .withArtifact _ (some a) =>
    match listResult with
    | .err => some []
    | .ok items => some (requestsForRevisionChange a.revision items)

/-- The `client.Object` handed to the indexer of `indexBy`: either a
`KluctlDeployment` or some other object. -/
inductive ClientObject where
  | kluctlDeployment (k : KluctlDeployment)
  | other (meta : ObjectMeta)
  deriving DecidableEq

/-- The indexer returned by `indexBy` (`kluctl_indexers.go`, lines
69-86): for a `KluctlDeployment` whose `Spec.SourceRef.Kind` matches,
one key `namespace/name` built from the source reference (falling back
to the deployment's own namespace); otherwise no keys. -/
def indexBy (kind : Str) (o : ClientObject) : List Str :=
  match o with
  | .other _ => []
  | .kluctlDeployment k =>
    if k.spec.sourceRef.kind = kind then
      let ns := if k.spec.sourceRef.ns ≠ [] then k.spec.sourceRef.ns
                else k.metadata.ns
      [ns ++ str "/" ++ k.spec.sourceRef.name]
    else []

/-- A deployment with every field at its zero value; concrete instances
below override the fields they care about. -/
def zeroDeployment : KluctlDeployment :=
  { metadata := { name := [], ns := [], generation := 0 }
    spec := { dependsOn := [], interval := 0, retryInterval := none,
              path := [], sourceRef := { kind := [], name := [], ns := [] },
              suspend := false, target := [], timeout := none,
              forceApply := false, prune := false }
    status := { observedGeneration := 0, conditions := [],
                lastDeployedRevision := [], lastAttemptedRevision := [] } }

/-- C1's counterexample input: interval 100s, timeout override 40s. -/
def exC1 : KluctlDeployment :=
  { zeroDeployment with
    spec := { zeroDeployment.spec with
              interval := 100 * second, timeout := some (40 * second) } }

/-- A concrete Healthy condition used by witnesses. -/
def exHealthy : Condition :=
  { type := HealthyCondition, status := ConditionTrue,
    reason := str "ok", message := str "healthy" }

/-- A concrete Ready condition used by witnesses. -/
def exReady : Condition :=
  { type := ReadyCondition, status := ConditionTrue,
    reason := str "ok", message := str "ready" }

/-- A deployment that already carries a Healthy condition. -/
def exWithHealthy : KluctlDeployment :=
  { zeroDeployment with
    status := { zeroDeployment.status with conditions := [exHealthy] } }

/-- A deployment referencing a `GitRepository` source with an empty
source-reference namespace. -/
def exSource : KluctlDeployment :=
  { zeroDeployment with
    metadata := { name := str "depl", ns := str "depl-ns", generation := 0 }
    spec := { zeroDeployment.spec with
              sourceRef := { kind := str "GitRepository",
                             name := str "repo", ns := [] } } }

/-- C1 (counterexample): the claim `GetTimeout = max(Interval - 30s,
Timeout override, 30s)` is false: with interval 100s and override 40s the
code returns 40s while the claimed maximum is 70s. -/
theorem getTimeout_not_three_way_max : GetTimeout exC1 ≠ GetTimeoutClaim exC1 := by
  decide

/-- C1 (amended): when the `Timeout` override is present `GetTimeout`
returns `max(override, 30s)` and ignores the interval; otherwise it
returns `max(Interval - 30s, 30s)` (with Go int64 wrap-around on the
subtraction). -/
theorem getTimeout_characterization (k : KluctlDeployment) :
    GetTimeout k = match k.spec.timeout with
      | some t => max t (30 * second)
      | none => max (int64wrap (k.spec.interval - 30 * second)) (30 * second) := by
  unfold GetTimeout
  cases h : k.spec.timeout with
  | none =>
    simp only [h]
    split
    · next hlt => exact (max_eq_right hlt.le).symm
    · next hge => exact (max_eq_left (not_lt.mp hge)).symm
  | some t =>
    simp only [h]
    split
    · next hlt => exact (max_eq_right hlt.le).symm
    · next hge => exact (max_eq_left (not_lt.mp hge)).symm

/-- C6: `GetTimeout` never returns less than 30 seconds, whatever the
interval and whether or not an override is present. -/
theorem getTimeout_floor (k : KluctlDeployment) :
    30 * second ≤ GetTimeout k := by
  unfold GetTimeout
  cases k.spec.timeout with
  | none =>
    simp only []
    split
    · exact le_refl _
    · next hge => exact not_lt.mp hge
  | some t =>
    simp only []
    split
    · exact le_refl _
    · next hge => exact not_lt.mp hge

/-- C3: `GetRetryInterval` returns the `RetryInterval` override when it is
set and otherwise falls back, via `GetRequeueAfter`, to the `Interval`
duration. -/
theorem getRetryInterval_spec (k : KluctlDeployment) :
    GetRetryInterval k = k.spec.retryInterval.getD (GetRequeueAfter k) ∧
    GetRequeueAfter k = k.spec.interval := by
  refine ⟨?_, rfl⟩
  unfold GetRetryInterval
  cases k.spec.retryInterval <;> rfl

/-- Upserting then looking up the same type yields the new condition. -/
theorem setStatusCondition_find_self (conds : List Condition) (c : Condition) :
    FindStatusCondition (SetStatusCondition conds c) c.type = some c := by
  induction conds with
  | nil =>
    simp [SetStatusCondition, FindStatusCondition]
  | cons d rest ih =>
    unfold SetStatusCondition
    by_cases h : d.type = c.type
    · simp [h, FindStatusCondition]
    · simpa [h, FindStatusCondition] using ih

/-- Conditions whose type differs from the upserted one stay present. -/
theorem setStatusCondition_preserves (conds : List Condition) (c d : Condition)
    (hmem : d ∈ conds) (hne : d.type ≠ c.type) :
    d ∈ SetStatusCondition conds c := by
  induction conds with
  | nil => cases hmem
  | cons e rest ih =>
    unfold SetStatusCondition
    rcases List.mem_cons.mp hmem with rfl | hm
    · rw [if_neg hne]
      exact List.mem_cons_self _ _
    · by_cases h : e.type = c.type
      · rw [if_pos h]
        exact List.mem_cons_of_mem _ hm
      · rw [if_neg h]
        exact List.mem_cons_of_mem _ (ih hm)

/-- The upserted list holds nothing but the new condition and old ones. -/
theorem setStatusCondition_subset (conds : List Condition) (c d : Condition)
    (hmem : d ∈ SetStatusCondition conds c) : d = c ∨ d ∈ conds := by
  induction conds with
  | nil => simpa [SetStatusCondition] using hmem
  | cons e rest ih =>
    unfold SetStatusCondition at hmem
    by_cases h : e.type = c.type
    · rw [if_pos h] at hmem
      rcases List.mem_cons.mp hmem with rfl | hm
      · exact Or.inl rfl
      · exact Or.inr (List.mem_cons_of_mem _ hm)
    · rw [if_neg h] at hmem
      rcases List.mem_cons.mp hmem with rfl | hm
      · exact Or.inr (List.mem_cons_self _ _)
      · rcases ih hm with hc | hm2
        · exact Or.inl hc
        · exact Or.inr (List.mem_cons_of_mem _ hm2)

/-- When a condition of the type already exists, upserting replaces it
and the list keeps its length. -/
theorem setStatusCondition_length_of_exists (conds : List Condition)
    (c : Condition) (h : ∃ d ∈ conds, d.type = c.type) :
    (SetStatusCondition conds c).length = conds.length := by
  induction conds with
  | nil =>
    rcases h with ⟨d, hd, _⟩
    cases hd
  | cons e rest ih =>
    unfold SetStatusCondition
    by_cases he : e.type = c.type
    · rw [if_pos he]
      simp
    · rw [if_neg he]
      rcases h with ⟨d, hd, hdt⟩
      rcases List.mem_cons.mp hd with rfl | hm
      · exact absurd hdt he
      · simp [ih ⟨d, hm, hdt⟩]

/-- When no condition of the type exists, upserting appends. -/
theorem setStatusCondition_append_of_not_exists (conds : List Condition)
    (c : Condition) (h : ¬ ∃ d ∈ conds, d.type = c.type) :
    SetStatusCondition conds c = conds ++ [c] := by
  induction conds with
  | nil => simp [SetStatusCondition]
  | cons e rest ih =>
    unfold SetStatusCondition
    have he : e.type ≠ c.type := fun hc => h ⟨e, List.mem_cons_self _ _, hc⟩
    rw [if_neg he]
    simp only [List.cons_append, List.cons.injEq, true_and]
    exact ih fun ⟨d, hd, hdt⟩ => h ⟨d, List.mem_cons_of_mem _ hd, hdt⟩

/-- Trimming is idempotent: re-trimming a trimmed string changes
nothing, because the kept prefix has exactly the limit's length. -/
theorem trimString_trimString (s : Str) (limit : Nat) :
    trimString (trimString s limit) limit = trimString s limit := by
  unfold trimString
  by_cases h : s.length ≤ limit
  · simp [h]
  · rw [if_neg h]
    push_neg at h
    have htake : (s.take limit).length = limit := by
      simp only [List.length_take]
      omega
    have hdots : (str "...").length = 3 := rfl
    have hlen : (s.take limit ++ str "...").length = limit + 3 := by
      simp [htake, hdots]
    rw [if_neg (by rw [hlen]; omega)]
    rw [List.take_left' htake]

/-- The conditions after `SetKluctlDeploymentReadiness` are the upsert of
the new Ready condition. -/
theorem setReadiness_conditions (k : KluctlDeployment)
    (status reason message revision : Str) :
    (SetKluctlDeploymentReadiness k status reason message revision).status.conditions =
      SetStatusCondition k.status.conditions
        { type := ReadyCondition, status := status, reason := reason,
          message := trimString message MaxConditionMessageLength } := rfl

/-- The conditions after `KluctlDeploymentNotReady` are the upsert of a
Ready/False condition carrying the once-trimmed message (the double trim
collapses). -/
theorem notReady_conditions (k : KluctlDeployment)
    (revision reason message : Str) :
    (KluctlDeploymentNotReady k revision reason message).status.conditions =
      SetStatusCondition k.status.conditions
        { type := ReadyCondition, status := ConditionFalse, reason := reason,
          message := trimString message MaxConditionMessageLength } := by
  unfold KluctlDeploymentNotReady
  split
  · simp [setReadiness_conditions, trimString_trimString]
  · simp [setReadiness_conditions, trimString_trimString]

/-- C4: every condition-setting helper (`KluctlDeploymentProgressing`,
`SetKluctlDeploymentHealthiness`, `SetKluctlDeploymentReadiness`,
`KluctlDeploymentNotReady`) stores the message trimmed: a message of
length at most `MaxConditionMessageLength` (20000) is stored verbatim,
and a longer one is stored as its first 20000 code units followed by
`"..."`. -/
theorem helpers_trim_condition_message (k : KluctlDeployment)
    (status reason revision message : Str) :
    FindStatusCondition (KluctlDeploymentProgressing k message).status.conditions
        ReadyCondition =
      some { type := ReadyCondition, status := ConditionUnknown,
             reason := ProgressingReason,
             message := trimString message MaxConditionMessageLength } ∧
    FindStatusCondition
        (SetKluctlDeploymentHealthiness k status reason message).status.conditions
        HealthyCondition =
      some { type := HealthyCondition, status := status, reason := reason,
             message := trimString message MaxConditionMessageLength } ∧
    FindStatusCondition
        (SetKluctlDeploymentReadiness k status reason message revision).status.conditions
        ReadyCondition =
      some { type := ReadyCondition, status := status, reason := reason,
             message := trimString message MaxConditionMessageLength } ∧
    FindStatusCondition
        (KluctlDeploymentNotReady k revision reason message).status.conditions
        ReadyCondition =
      some { type := ReadyCondition, status := ConditionFalse, reason := reason,
             message := trimString message MaxConditionMessageLength } ∧
    trimString message MaxConditionMessageLength =
      (if message.length ≤ MaxConditionMessageLength then message
       else message.take MaxConditionMessageLength ++ str "...") := by
  refine ⟨?_, ?_, ?_, ?_, rfl⟩
  · exact setStatusCondition_find_self k.status.conditions
      { type := ReadyCondition, status := ConditionUnknown,
        reason := ProgressingReason,
        message := trimString message MaxConditionMessageLength }
  · exact setStatusCondition_find_self k.status.conditions
      { type := HealthyCondition, status := status, reason := reason,
        message := trimString message MaxConditionMessageLength }
  · rw [setReadiness_conditions]
    exact setStatusCondition_find_self k.status.conditions
      { type := ReadyCondition, status := status, reason := reason,
        message := trimString message MaxConditionMessageLength }
  · rw [notReady_conditions]
    exact setStatusCondition_find_self k.status.conditions
      { type := ReadyCondition, status := ConditionFalse, reason := reason,
        message := trimString message MaxConditionMessageLength }

/-- C5: setting a condition follows upsert-by-type semantics: looking up
the new condition's type finds the new condition, conditions of other
types remain present, nothing appears beyond the new and old conditions,
the list keeps its length when a condition of that type already exists,
and otherwise the new condition is appended. -/
theorem setStatusCondition_upsert (conds : List Condition) (c : Condition) :
    FindStatusCondition (SetStatusCondition conds c) c.type = some c ∧
    (∀ d ∈ conds, d.type ≠ c.type → d ∈ SetStatusCondition conds c) ∧
    (∀ d ∈ SetStatusCondition conds c, d = c ∨ d ∈ conds) ∧
    ((∃ d ∈ conds, d.type = c.type) →
      (SetStatusCondition conds c).length = conds.length) ∧
    ((¬ ∃ d ∈ conds, d.type = c.type) →
      SetStatusCondition conds c = conds ++ [c]) :=
  ⟨setStatusCondition_find_self conds c,
   fun d hd hne => setStatusCondition_preserves conds c d hd hne,
   fun d hd => setStatusCondition_subset conds c d hd,
   setStatusCondition_length_of_exists conds c,
   setStatusCondition_append_of_not_exists conds c⟩

/-- Witness for C5: upserting a Ready condition into a list holding only
a Healthy condition appends it. -/
theorem setStatusCondition_upsert_witness :
    SetStatusCondition [exHealthy] exReady = [exHealthy, exReady] :=
  (setStatusCondition_upsert [exHealthy] exReady).2.2.2.2 (by decide)

/-- C7: `SetKluctlDeploymentReadiness` upserts the Ready condition and
sets `ObservedGeneration` to the object's generation and
`LastAttemptedRevision` to the given revision — for every revision,
including the empty string. -/
theorem setReadiness_spec (k : KluctlDeployment)
    (status reason message revision : Str) :
    FindStatusCondition
        (SetKluctlDeploymentReadiness k status reason message revision).status.conditions
        ReadyCondition =
      some { type := ReadyCondition, status := status, reason := reason,
             message := trimString message MaxConditionMessageLength } ∧
    (SetKluctlDeploymentReadiness k status reason message revision).status.observedGeneration =
      k.metadata.generation ∧
    (SetKluctlDeploymentReadiness k status reason message revision).status.lastAttemptedRevision =
      revision := by
  refine ⟨?_, rfl, rfl⟩
  rw [setReadiness_conditions]
  exact setStatusCondition_find_self k.status.conditions
    { type := ReadyCondition, status := status, reason := reason,
      message := trimString message MaxConditionMessageLength }

/-- C8: `KluctlDeploymentProgressing` keeps every condition of a type
other than Ready, upserts the Ready condition instead of resetting the
list, and leaves the spec, the metadata, `ObservedGeneration` and
`LastAttemptedRevision` unchanged. -/
theorem progressing_frame (k : KluctlDeployment) (message : Str) :
    (∀ c ∈ k.status.conditions, c.type ≠ ReadyCondition →
      c ∈ (KluctlDeploymentProgressing k message).status.conditions) ∧
    FindStatusCondition
        (KluctlDeploymentProgressing k message).status.conditions ReadyCondition =
      some { type := ReadyCondition, status := ConditionUnknown,
             reason := ProgressingReason,
             message := trimString message MaxConditionMessageLength } ∧
    (KluctlDeploymentProgressing k message).spec = k.spec ∧
    (KluctlDeploymentProgressing k message).metadata = k.metadata ∧
    (KluctlDeploymentProgressing k message).status.observedGeneration =
      k.status.observedGeneration ∧
    (KluctlDeploymentProgressing k message).status.lastAttemptedRevision =
      k.status.lastAttemptedRevision := by
  refine ⟨?_, ?_, rfl, rfl, rfl, rfl⟩
  · intro c hc hne
    exact setStatusCondition_preserves k.status.conditions _ c hc hne
  · exact setStatusCondition_find_self k.status.conditions
      { type := ReadyCondition, status := ConditionUnknown,
        reason := ProgressingReason,
        message := trimString message MaxConditionMessageLength }

/-- Witness for C8: a pre-existing Healthy condition survives
`KluctlDeploymentProgressing`. -/
theorem progressing_frame_witness :
    exHealthy ∈ (KluctlDeploymentProgressing exWithHealthy (str "m")).status.conditions :=
  (progressing_frame exWithHealthy (str "m")).1 exHealthy (by decide) (by decide)

/-- C2: with a non-nil artifact and a successful list, the mapper emits a
request for exactly the indexed deployments whose
`Status.LastAttemptedRevision` differs from the artifact's revision. -/
theorem requestsForRevisionChangeOf_filters (m : ObjectMeta) (a : Artifact)
    (items : List KluctlDeployment) :
    requestsForRevisionChangeOf (.withArtifact m (some a)) (.ok items) =
      some ((items.filter
          (fun d => decide (¬ a.revision = d.status.lastAttemptedRevision))).map
        (fun d => { namespacedName := { ns := d.metadata.ns,
                                        name := d.metadata.name } })) := by
  simp only [requestsForRevisionChangeOf]
  congr 1
  induction items with
  | nil => rfl
  | cons d rest ih =>
    unfold requestsForRevisionChange
    rw [List.filter_cons]
    by_cases h : a.revision = d.status.lastAttemptedRevision
    · rw [if_pos h, if_neg (by simp [h]), ih]
    · rw [if_neg h, if_pos (by simp [h]), List.map_cons, ih]

/-- C10: the mapper returns the empty request list when the artifact is
nil and when the list call fails, and its only panic case is an object
that does not implement `GetArtifact()` (modelled as `none`); the model
is a pure function, so no state is mutated. -/
theorem requestsForRevisionChangeOf_degenerate (m : ObjectMeta)
    (a : Artifact) (lr : ListResult) :
    requestsForRevisionChangeOf (.withArtifact m none) lr = some [] ∧
    requestsForRevisionChangeOf (.withArtifact m (some a)) .err = some [] ∧
    requestsForRevisionChangeOf (.withoutGetArtifact m) lr = none :=
  ⟨rfl, rfl, rfl⟩

/-- C9: the indexer returned by `indexBy` yields no key for an object
that is not a `KluctlDeployment` or whose `Spec.SourceRef.Kind` differs
from the given kind, and otherwise yields the single key
`namespace/name`, where the namespace is the source reference's when
non-empty and the deployment's own otherwise, and the name is the source
reference's. -/
theorem indexBy_spec (kind : Str) (k : KluctlDeployment) (m : ObjectMeta) :
    indexBy kind (.other m) = [] ∧
    (k.spec.sourceRef.kind ≠ kind → indexBy kind (.kluctlDeployment k) = []) ∧
    (k.spec.sourceRef.kind = kind →
      indexBy kind (.kluctlDeployment k) =
        [(if k.spec.sourceRef.ns ≠ [] then k.spec.sourceRef.ns
          else k.metadata.ns) ++ str "/" ++ k.spec.sourceRef.name]) := by
  refine ⟨rfl, ?_, ?_⟩
  · intro h
    simp [indexBy, h]
  · intro h
    simp [indexBy, h]

/-- Witness for C9: a deployment whose source reference has kind
`GitRepository` and an empty namespace is indexed under its own
namespace and the reference's name. -/
theorem indexBy_spec_witness :
    indexBy (str "GitRepository") (.kluctlDeployment exSource) =
      [str "depl-ns/repo"] := by
  have h := (indexBy_spec (str "GitRepository") exSource
    { name := [], ns := [], generation := 0 }).2.2 (by decide)
  rw [h]
  decide

end FluxKluctl
